import Mathlib

/-!
Verification of the gemini proxy's protocol-translation engine and of the bundled
CRUD scaffold's data routes.

The repository ships the full documentation of the translation engine
(`src/API_DOCUMENTATION.md`, the developer documentation) but the engine's own
source files (`src/api_proxy/worker.mjs`, `src/index.js`, `src/deno_index.ts`)
are not part of the source tree here; those components are modelled from the
specification, and each such definition carries a doc comment saying so.
The CRUD scaffold's route handlers (`src/new-project/backend/src/routes/data.ts`)
are present and are embedded directly from the source.
-/

namespace GeminiProxy

/-- Modelled from the spec: the backend finish codes treated as content-filter
reasons by §4.5 ("SAFETY"/any content-filter reason → "content_filter"); the
worker.mjs source holding the literal table is not in the tree. -/
def contentFilterReasons : List String := ["SAFETY", "RECITATION"]

/-- Modelled from the spec: the finish-reason mapping of §4.5/§4.6, applied by
both the Response Transformer and the Stream Reframer. Backend "STOP" maps to
"stop", "MAX_TOKENS" to "length", content-filter reasons to "content_filter",
and any other code to "stop" (the documented default). -/
def mapFinishReason (code : String) : String :=
  if code = "STOP" then "stop"
  else if code = "MAX_TOKENS" then "length"
  else if contentFilterReasons.contains code then "content_filter"
  else "stop"

/-- The alphanumeric alphabet `[A-Za-z0-9]` used for response ids. -/
def alphanumericChars : List Char :=
  "ABCDEFGHIJKLMNOPQRSTUVWXYZabcdefghijklmnopqrstuvwxyz0123456789".toList

/-- Modelled from the spec: `generateChatcmplId` of worker.mjs (absent from the
tree; the developer documentation records its format as the literal "chatcmpl-"
followed by 29 random alphanumeric characters). The random source is modelled
as an arbitrary function giving the character index drawn at each position. -/
def generateChatcmplId (rand : Nat → Nat) : List Char :=
  "chatcmpl-".toList ++
    (List.range 29).map (fun i =>
      alphanumericChars.get
        ⟨rand i % alphanumericChars.length, Nat.mod_lt _ (by decide)⟩)

/-- One character is alphanumeric in the sense of the pattern `[A-Za-z0-9]`. -/
def isAlphanumeric (c : Char) : Bool :=
  ('A' ≤ c && c ≤ 'Z') || ('a' ≤ c && c ≤ 'z') || ('0' ≤ c && c ≤ '9')

/-- The pattern check for `^chatcmpl-[A-Za-z0-9]\x7b29\x7d$` on a character list:
the first nine characters are the literal "chatcmpl-" and they are followed by
exactly 29 alphanumeric characters. -/
def matchesChatcmplPattern (s : List Char) : Bool :=
  (s.take 9 == "chatcmpl-".toList)
    && (s.drop 9).length == 29
    && (s.drop 9).all isAlphanumeric

end GeminiProxy

namespace GeminiProxy

/-- Canonical generation parameters of a chat-completion request (§6), with the
wire names of the canonical dialect. Numeric sampling parameters are modelled
as integers; only which field is chosen matters for the mapping. -/
structure OpenAiRequestConfig where
  stop : List String := []
  n : Option Nat := none
  max_tokens : Option Nat := none
  max_completion_tokens : Option Nat := none
  temperature : Option Int := none
  top_p : Option Int := none
  top_k : Option Int := none
  frequency_penalty : Option Int := none
  presence_penalty : Option Int := none

/-- Backend-native generation config (§3 GenerationConfig). -/
structure GeminiGenerationConfig where
  stopSequences : List String
  candidateCount : Option Nat
  maxOutputTokens : Option Nat
  temperature : Option Int
  topP : Option Int
  topK : Option Int
  frequencyPenalty : Option Int
  presencePenalty : Option Int

/-- Modelled from the spec: `transformConfig` of worker.mjs (absent from the
tree), the Parameter Mapper of §4.1. Each canonical field maps to its native
counterpart; `maxOutputTokens` is taken from `max_completion_tokens` when that
field is present and from `max_tokens` otherwise, the precedence §4.1 records. -/
def transformConfig (req : OpenAiRequestConfig) : GeminiGenerationConfig :=
  { stopSequences := req.stop
    candidateCount := req.n
    maxOutputTokens :=
      match req.max_completion_tokens with
      | some v => some v
      | none => req.max_tokens
    temperature := req.temperature
    topP := req.top_p
    topK := req.top_k
    frequencyPenalty := req.frequency_penalty
    presencePenalty := req.presence_penalty }

/-- Modelled from the spec: the request-side role mapping of `transformMessages`
(§4.2): canonical "assistant" becomes native "model", "user" is unchanged
(system messages are extracted separately and never sent as a turn). -/
def toGeminiRole (role : String) : String :=
  if role = "assistant" then "model" else role

/-- One generated candidate of a backend response. -/
structure GeminiCandidate where
  index : Nat
  role : String
  content : String
  finishReason : String

/-- The message part of a canonical choice. -/
structure ChoiceMessage where
  role : String
  content : String

/-- One canonical choice of a chat-completion response. -/
structure Choice where
  index : Nat
  message : ChoiceMessage
  logprobs : Option String
  finish_reason : String

/-- Modelled from the spec: `transformCandidatesMessage` of worker.mjs (absent
from the tree), the per-candidate step of the Response Transformer (§4.5): an
assistant-role message holding the candidate's text, null logprobs, and the
mapped finish reason. -/
def transformCandidatesMessage (cand : GeminiCandidate) : Choice :=
  { index := cand.index
    message := { role := "assistant", content := cand.content }
    logprobs := none
    finish_reason := mapFinishReason cand.finishReason }

end GeminiProxy

namespace GeminiProxy

/-- One parsed upstream streaming event: the candidate index it targets, the
text fragment it carries, and the finish reason when it ends that candidate. -/
structure UpstreamEvent where
  index : Nat
  content : String
  finishReason : Option String

/-- The delta of a canonical stream chunk; absent fields are omitted. -/
structure Delta where
  role : Option String := none
  content : Option String := none

/-- One choice inside a canonical stream chunk. -/
structure ChunkChoice where
  index : Nat
  delta : Delta
  finish_reason : Option String

/-- One line of the outgoing event stream: either a `data:` chunk or the
literal terminator line `data: [DONE]`. -/
inductive StreamLine where
  | chunk : ChunkChoice → StreamLine
  | done : StreamLine

/-- Whether a stream line is the terminator. -/
def StreamLine.isDone : StreamLine → Bool
  | .done => true
  | .chunk _ => false

/-- Modelled from the spec: the per-event step of the Stream Reframer
(`toOpenAiStream` of worker.mjs, absent from the tree; §4.6). `seen` is the set
of candidate indices already emitted. An event carrying a finish reason becomes
the candidate's final chunk: an empty delta plus the mapped finish reason. The
first content event for an index carries the role "assistant" in its delta and
marks the index seen; later content events for that index omit the role. -/
def reframeEvent (seen : List Nat) (e : UpstreamEvent) : List StreamLine × List Nat :=
  match e.finishReason with
  | some r =>
      ([StreamLine.chunk
          { index := e.index, delta := {}, finish_reason := some (mapFinishReason r) }],
       seen)
  | none =>
      if seen.contains e.index then
        ([StreamLine.chunk
            { index := e.index
              delta := { role := none, content := some e.content }
              finish_reason := none }],
         seen)
      else
        ([StreamLine.chunk
            { index := e.index
              delta := { role := some "assistant", content := some e.content }
              finish_reason := none }],
         e.index :: seen)

/-- The Stream Reframer's loop over the parsed upstream events, threading the
seen-index state. -/
def reframeGo : List Nat → List UpstreamEvent → List StreamLine
  | _, [] => []
  | seen, e :: rest =>
      (reframeEvent seen e).1 ++ reframeGo (reframeEvent seen e).2 rest

/-- Modelled from the spec: the whole reframed stream (§4.6): every parsed
upstream event is converted in order, and after the upstream stream ends the
literal terminator event is emitted. -/
def reframe (events : List UpstreamEvent) : List StreamLine :=
  reframeGo [] events ++ [StreamLine.done]

/-- The delta content fragments of a stream, in emission order. -/
def deltaContents (lines : List StreamLine) : List String :=
  lines.filterMap fun l =>
    match l with
    | .chunk c => c.delta.content
    | .done => none

/-- Concatenation of a list of text fragments. -/
def concatAll : List String → String
  | [] => ""
  | s :: rest => s ++ concatAll rest

/-- An upstream content event for candidate index 0 carrying one fragment. -/
def contentEventOf (p : String) : UpstreamEvent :=
  { index := 0, content := p, finishReason := none }

/-- Modelled from the spec: the event stream a deterministic single-candidate
(`n = 1`) backend produces for one generation, given by the fragments it
streams: one content event per fragment, then a final event carrying the
finish reason. -/
def streamEventsOf (parts : List String) (finish : String) : List UpstreamEvent :=
  parts.map contentEventOf ++ [{ index := 0, content := "", finishReason := some finish }]

/-- Modelled from the spec: the candidate the same deterministic backend
returns on the equivalent non-streaming call — the full concatenated text of
the generation, with the same finish reason. -/
def unaryCandidateOf (parts : List String) (finish : String) : GeminiCandidate :=
  { index := 0, role := "model", content := concatAll parts, finishReason := finish }

end GeminiProxy

namespace GeminiProxy

/-- The kinds of internal failure of the ProxyError taxonomy (§3, §7). -/
inductive ErrorKind where
  | validation
  | auth
  | unsupportedContent
  | upstream
  | transport
deriving DecidableEq

/-- An internal failure: its kind, a message, and the backend-reported status
code when one is known. -/
structure ProxyError where
  kind : ErrorKind
  message : String
  upstreamStatus : Option Nat

/-- Modelled from the spec: the Error Normalizer's status mapping (§4.8):
validation → 400, auth → 401, unsupported-content → 400, upstream → the
backend-reported status or 500 if unknown, transport → 500. -/
def statusOf (e : ProxyError) : Nat :=
  match e.kind with
  | .validation => 400
  | .auth => 401
  | .unsupportedContent => 400
  | .upstream => e.upstreamStatus.getD 500
  | .transport => 500

end GeminiProxy

namespace GeminiProxy

/-- One action observed by a realtime relay session: a client message arriving,
or the backend channel becoming open. -/
inductive RelayEvent where
  | clientMsg : String → RelayEvent
  | backendOpen : RelayEvent

/-- The state of one relay session: whether the backend channel is open, the
pending FIFO queue, and the sequence of messages the backend has observed. -/
structure RelayState where
  backendReady : Bool
  pendingMessages : List String
  backendReceived : List String
deriving DecidableEq

/-- The relay's client-message step follows the message-queue logic quoted in
the developer documentation: when the backend socket is open the message is
sent at once, otherwise it is pushed onto `pendingMessages`. Modelled from the
spec for the open transition (§4.7, the containing handleWebSocket of
src/index.js is absent from the tree): on backend-open the queue is flushed to
the backend in FIFO order exactly once and then cleared. -/
def relayStep (s : RelayState) (e : RelayEvent) : RelayState :=
  match e with
  | .clientMsg m =>
      if s.backendReady then { s with backendReceived := s.backendReceived ++ [m] }
      else { s with pendingMessages := s.pendingMessages ++ [m] }
  | .backendOpen =>
      { backendReady := true
        pendingMessages := []
        backendReceived := s.backendReceived ++ s.pendingMessages }

/-- The initial relay state: backend not yet open, nothing queued or delivered. -/
def relayInit : RelayState :=
  { backendReady := false, pendingMessages := [], backendReceived := [] }

/-- Running one relay session over a sequence of observed events. -/
def relayRun (events : List RelayEvent) : RelayState :=
  events.foldl relayStep relayInit

end GeminiProxy

namespace DataRoutes

/-- One item of the CRUD scaffold's in-memory store
(src/new-project/backend/src/routes/data.ts, mockData). Ids are JavaScript
numbers holding integers; they are embedded as Int. -/
structure DataItem where
  id : Int
  title : String
  content : String
  createdAt : String
deriving DecidableEq

/-- The expression Math.max(...mockData.map(item => item.id)) of the create
handler, for a non-empty store; on the empty store JavaScript would give
-Infinity, a non-finite value outside this embedding, so 0 stands in — the
create claim only concerns non-empty stores. -/
def maxIdOf : List DataItem → Int
  | [] => 0
  | [x] => x.id
  | x :: y :: rest => max x.id (maxIdOf (y :: rest))

/-- The create handler (router.post of data.ts): express-validator rejects a
missing or empty title or content with a 400 (modelled as none); otherwise the
new item gets id Math.max(existing ids) + 1 and is pushed onto the end of the
store. Returns the updated store and the created item. -/
def createItem (store : List DataItem) (titleOpt contentOpt : Option String)
    (createdAt : String) : Option (List DataItem × DataItem) :=
  match titleOpt, contentOpt with
  | some title, some content =>
      if title = "" ∨ content = "" then none
      else
        let newItem : DataItem :=
          { id := maxIdOf store + 1, title := title, content := content,
            createdAt := createdAt }
        some (store ++ [newItem], newItem)
  | _, _ => none

/-- Truthiness of an optional string request field, as JavaScript's
`if (title)` sees it: present and not the empty string. -/
def truthy : Option String → Bool
  | some s => !(s == "")
  | none => false

/-- The field updates the put handler applies to the found item once
validation has passed:
`if (title) item.title = title; if (content) item.content = content;` —
each field is overwritten only when supplied and truthy, mirroring the
source's truthiness guards literally (after validation a supplied field is
necessarily non-empty, so the guard coincides with being supplied). -/
def applyUpdate (titleOpt contentOpt : Option String) (x : DataItem) : DataItem :=
  let x1 :=
    match titleOpt with
    | some t => if t = "" then x else { x with title := t }
    | none => x
  match contentOpt with
  | some c => if c = "" then x1 else { x1 with content := c }
  | none => x1

/-- The found-item update of the put handler (router.put of data.ts), run
only after validation has passed: findIndex locates the first item with the
requested id and the field updates are applied to it in place; every other
item is untouched. -/
def updateItem (idv : Int) (titleOpt contentOpt : Option String) :
    List DataItem → List DataItem
  | [] => []
  | x :: rest =>
      if x.id = idv then applyUpdate titleOpt contentOpt x :: rest
      else x :: updateItem idv titleOpt contentOpt rest

/-- The express-validator gate of router.put:
`body('title').optional().notEmpty()` and
`body('content').optional().notEmpty()` — each field may be absent, but a
supplied field must be non-empty; a supplied empty field fails validation. -/
def putValidationOk (titleOpt contentOpt : Option String) : Bool :=
  (match titleOpt with
    | some t => !(t == "")
    | none => true)
  && (match contentOpt with
    | some c => !(c == "")
    | none => true)

/-- The outcome of the update handler: 400 on validation failure, 404 when no
item matches the id, 200 on success. -/
inductive PutResult where
  | badRequest
  | notFound
  | ok
deriving DecidableEq

/-- The whole update handler (router.put of data.ts): express-validator runs
first and a supplied-but-empty title or content yields 400 with the store
fully unchanged; then findIndex, with 404 and an unchanged store when no item
matches; otherwise the in-place field updates are applied to the found item. -/
def putRoute (idv : Int) (titleOpt contentOpt : Option String)
    (store : List DataItem) : PutResult × List DataItem :=
  if putValidationOk titleOpt contentOpt then
    if store.any (fun x => x.id == idv) then
      (PutResult.ok, updateItem idv titleOpt contentOpt store)
    else (PutResult.notFound, store)
  else (PutResult.badRequest, store)

/-- A concrete non-empty store used to instantiate the create-handler theorem. -/
def sampleStoreA : List DataItem :=
  [{ id := 1, title := "t1", content := "c1", createdAt := "d1" },
   { id := 5, title := "t2", content := "c2", createdAt := "d2" }]

/-- A concrete store used to instantiate the update-handler theorem. -/
def sampleStoreB : List DataItem :=
  [{ id := 1, title := "ta", content := "ca", createdAt := "da" },
   { id := 2, title := "tb", content := "cb", createdAt := "db" }]

end DataRoutes

namespace GeminiProxy

/-- The seen-index state of the Stream Reframer after processing a list of
upstream events from a given starting state. -/
def seenAfter : List Nat → List UpstreamEvent → List Nat
  | seen, [] => seen
  | seen, e :: rest => seenAfter (reframeEvent seen e).2 rest

end GeminiProxy

namespace GeminiProxy

/-- Every character of the id alphabet satisfies the alphanumeric check. -/
theorem alphanumericChars_all :
    ∀ c ∈ alphanumericChars, isAlphanumeric c = true := by decide

/-- Claim C3: the finish-reason mapping applied by the Response Transformer
and the Stream Reframer is total — every backend finish code yields exactly
one of stop, length, content_filter — with "STOP" mapped to "stop",
"MAX_TOKENS" to "length", "SAFETY" (and every content-filter reason) to
"content_filter", and any other code to "stop". -/
theorem finish_reason_mapping_total (c : String) :
    (mapFinishReason c = "stop" ∨ mapFinishReason c = "length" ∨
      mapFinishReason c = "content_filter")
    ∧ mapFinishReason "STOP" = "stop"
    ∧ mapFinishReason "MAX_TOKENS" = "length"
    ∧ (∀ r, contentFilterReasons.contains r = true → mapFinishReason r = "content_filter")
    ∧ (c ≠ "STOP" → c ≠ "MAX_TOKENS" → contentFilterReasons.contains c = false →
        mapFinishReason c = "stop") := by
  refine ⟨?_, by decide, by decide, ?_, ?_⟩
  · unfold mapFinishReason
    split_ifs <;> simp
  · intro r hr
    have h1 : r ≠ "STOP" := by
      intro he; rw [he] at hr; exact absurd hr (by decide)
    have h2 : r ≠ "MAX_TOKENS" := by
      intro he; rw [he] at hr; exact absurd hr (by decide)
    have hm : r ∈ contentFilterReasons := by simpa using hr
    simp [mapFinishReason, h1, h2, hm]
  · intro h1 h2 h3
    have hm : c ∉ contentFilterReasons := by simpa using h3
    simp [mapFinishReason, h1, h2, hm]

/-- Witness for C3 at the concrete unrecognized code "OTHER" and the
content-filter reason "SAFETY". -/
theorem finish_reason_mapping_total_witness :
    (contentFilterReasons.contains "SAFETY" = true
      ∧ "OTHER" ≠ "STOP" ∧ "OTHER" ≠ "MAX_TOKENS"
      ∧ contentFilterReasons.contains "OTHER" = false)
    ∧ mapFinishReason "SAFETY" = "content_filter"
    ∧ mapFinishReason "OTHER" = "stop" :=
  ⟨⟨by decide, by decide, by decide, by decide⟩,
   (finish_reason_mapping_total "OTHER").2.2.2.1 "SAFETY" (by decide),
   (finish_reason_mapping_total "OTHER").2.2.2.2 (by decide) (by decide) (by decide)⟩

/-- Claim C4: every generated response id matches the pattern
`^chatcmpl-[A-Za-z0-9]\x7b29\x7d$`, whatever values the random source takes. -/
theorem chatcmpl_id_matches (rand : Nat → Nat) :
    matchesChatcmplPattern (generateChatcmplId rand) = true := by
  have hlen : ("chatcmpl-".toList).length = 9 := by decide
  unfold matchesChatcmplPattern generateChatcmplId
  rw [List.take_left' hlen, List.drop_left' hlen]
  simp only [List.length_map, List.length_range, Bool.and_eq_true, beq_iff_eq]
  refine ⟨by simp, ?_⟩
  rw [List.all_eq_true]
  intro c hc
  rw [List.mem_map] at hc
  obtain ⟨i, _, rfl⟩ := hc
  exact alphanumericChars_all _ (List.get_mem _ _ _)

/-- Claim C5: when both `max_tokens` and `max_completion_tokens` are present,
the Parameter Mapper sets the backend-native `maxOutputTokens` from
`max_completion_tokens`. -/
theorem max_completion_tokens_precedence (req : OpenAiRequestConfig) (a b : Nat) :
    (transformConfig
        { req with max_tokens := some a, max_completion_tokens := some b }).maxOutputTokens
      = some b := rfl

/-- Claim C6: role mapping round-trips — the request side maps canonical
"assistant" to native "model", and the Response Transformer maps a generated
candidate carrying that native role back to "assistant", so the composition is
the identity on "assistant". -/
theorem assistant_role_round_trip (i : Nat) (content fr : String) :
    toGeminiRole "assistant" = "model"
    ∧ (transformCandidatesMessage
        { index := i, role := toGeminiRole "assistant", content := content,
          finishReason := fr }).message.role = "assistant" :=
  ⟨by decide, rfl⟩

/-- Claim C7: the Error Normalizer maps each ProxyError kind to exactly the
stated HTTP status — validation 400, auth 401, unsupported-content 400,
upstream the backend-reported status (500 if unknown), transport 500. -/
theorem error_status_mapping (msg : String) (st : Option Nat) (n : Nat) :
    statusOf { kind := .validation, message := msg, upstreamStatus := st } = 400
    ∧ statusOf { kind := .auth, message := msg, upstreamStatus := st } = 401
    ∧ statusOf { kind := .unsupportedContent, message := msg, upstreamStatus := st } = 400
    ∧ statusOf { kind := .upstream, message := msg, upstreamStatus := some n } = n
    ∧ statusOf { kind := .upstream, message := msg, upstreamStatus := none } = 500
    ∧ statusOf { kind := .transport, message := msg, upstreamStatus := st } = 500 :=
  ⟨rfl, rfl, rfl, rfl, rfl, rfl⟩

/-- The per-event reframer step never emits the terminator. -/
theorem reframeEvent_no_done (seen : List Nat) (e : UpstreamEvent) :
    ((reframeEvent seen e).1).countP StreamLine.isDone = 0 := by
  rcases e with ⟨idx, content, fr⟩
  cases fr with
  | none =>
      by_cases h : idx ∈ seen <;>
        simp [reframeEvent, h, StreamLine.isDone]
  | some r => simp [reframeEvent, StreamLine.isDone]

/-- The reframer loop never emits the terminator. -/
theorem reframeGo_no_done (evs : List UpstreamEvent) :
    ∀ seen, (reframeGo seen evs).countP StreamLine.isDone = 0 := by
  induction evs with
  | nil => intro seen; simp [reframeGo]
  | cons e rest ih =>
      intro seen
      simp only [reframeGo, List.countP_append]
      rw [reframeEvent_no_done, ih]

/-- Claim C1: on every reframed stream the terminator event appears exactly
once, and it is the last event of the stream. -/
theorem stream_terminator_last_and_once (events : List UpstreamEvent) :
    (reframe events).countP StreamLine.isDone = 1
    ∧ (reframe events).getLast? = some StreamLine.done := by
  constructor
  · rw [reframe, List.countP_append, reframeGo_no_done]
    decide
  · rw [reframe]
    exact List.getLast?_concat _

/-- Folding client messages into a relay session whose backend channel is not
yet open only appends them, in order, to the pending queue. -/
theorem relay_foldl_closed (xs : List String) :
    ∀ p r, List.foldl relayStep ⟨false, p, r⟩ (xs.map RelayEvent.clientMsg)
      = ⟨false, p ++ xs, r⟩ := by
  induction xs with
  | nil => intro p r; simp
  | cons x rest ih =>
      intro p r
      simp only [List.map_cons, List.foldl_cons]
      have hstep : relayStep ⟨false, p, r⟩ (RelayEvent.clientMsg x)
          = ⟨false, p ++ [x], r⟩ := rfl
      rw [hstep, ih, List.append_assoc]
      rfl

/-- Folding client messages into a relay session whose backend channel is open
forwards them, in order, to the backend at once. -/
theorem relay_foldl_open (ys : List String) :
    ∀ p r, List.foldl relayStep ⟨true, p, r⟩ (ys.map RelayEvent.clientMsg)
      = ⟨true, p, r ++ ys⟩ := by
  induction ys with
  | nil => intro p r; simp
  | cons y rest ih =>
      intro p r
      simp only [List.map_cons, List.foldl_cons]
      have hstep : relayStep ⟨true, p, r⟩ (RelayEvent.clientMsg y)
          = ⟨true, p, r ++ [y]⟩ := rfl
      rw [hstep, ih, List.append_assoc]
      rfl

/-- Claim C2: in a relay session, every client message arriving before the
backend channel opens is queued in arrival order, the queue is flushed exactly
once at backend-open, and every later message is forwarded immediately — so
for any messages xs sent pre-open and ys sent post-open the backend observes
exactly xs ++ ys, with an empty queue afterwards (no loss, no duplication). -/
theorem relay_fifo_order (xs ys : List String) :
    relayRun (xs.map RelayEvent.clientMsg ++
        RelayEvent.backendOpen :: ys.map RelayEvent.clientMsg)
      = { backendReady := true, pendingMessages := [], backendReceived := xs ++ ys } := by
  unfold relayRun relayInit
  rw [List.foldl_append, relay_foldl_closed, List.foldl_cons]
  have hstep : relayStep ⟨false, [] ++ xs, []⟩ RelayEvent.backendOpen
      = ⟨true, [], [] ++ ([] ++ xs)⟩ := rfl
  rw [hstep, relay_foldl_open]
  simp

/-- deltaContents distributes over stream concatenation. -/
theorem deltaContents_append (l₁ l₂ : List StreamLine) :
    deltaContents (l₁ ++ l₂) = deltaContents l₁ ++ deltaContents l₂ := by
  unfold deltaContents
  exact List.filterMap_append _ _ _

/-- The reframer loop splits over a split of the upstream events, the second
half starting from the threaded seen-index state. -/
theorem reframeGo_split (xs ys : List UpstreamEvent) :
    ∀ seen, reframeGo seen (xs ++ ys)
      = reframeGo seen xs ++ reframeGo (seenAfter seen xs) ys := by
  induction xs with
  | nil => intro seen; simp [reframeGo, seenAfter]
  | cons e rest ih =>
      intro seen
      simp only [List.cons_append, reframeGo, seenAfter, List.append_eq]
      rw [ih, List.append_assoc]

/-- The delta contents the reframer emits for a run of content events are
exactly the upstream fragments, in order, from any seen-index state. -/
theorem reframeGo_content_fragments (parts : List String) :
    ∀ seen, deltaContents (reframeGo seen (parts.map contentEventOf)) = parts := by
  induction parts with
  | nil => intro seen; simp [reframeGo, deltaContents]
  | cons p rest ih =>
      intro seen
      simp only [List.map_cons, reframeGo]
      rw [deltaContents_append]
      by_cases h : (0 : Nat) ∈ seen
      · have he : reframeEvent seen (contentEventOf p)
            = ([StreamLine.chunk
                { index := 0, delta := { role := none, content := some p },
                  finish_reason := none }], seen) := by
          simp [reframeEvent, contentEventOf, h]
        rw [he, ih]
        rfl
      · have he : reframeEvent seen (contentEventOf p)
            = ([StreamLine.chunk
                { index := 0, delta := { role := some "assistant", content := some p },
                  finish_reason := none }], 0 :: seen) := by
          simp [reframeEvent, contentEventOf, h]
        rw [he, ih]
        rfl

/-- Claim C8: for a deterministic single-candidate backend, concatenating all
delta content fragments the Stream Reframer emits, in emission order, yields
the same text as the message content of the Response Transformer's result for
the equivalent non-streaming call. -/
theorem stream_unary_content_agree (parts : List String) (finish : String) :
    concatAll (deltaContents (reframe (streamEventsOf parts finish)))
      = (transformCandidatesMessage (unaryCandidateOf parts finish)).message.content := by
  unfold reframe streamEventsOf
  rw [reframeGo_split, deltaContents_append, deltaContents_append,
    reframeGo_content_fragments]
  have h1 : deltaContents (reframeGo
      (seenAfter [] (parts.map contentEventOf))
      [{ index := 0, content := "", finishReason := some finish }]) = [] := by
    simp [reframeGo, reframeEvent, deltaContents]
  have h2 : deltaContents [StreamLine.done] = [] := rfl
  rw [h1, h2, List.append_nil, List.append_nil]
  rfl

end GeminiProxy

namespace DataRoutes

/-- Every id in the store is bounded by the store's maximum id. -/
theorem le_maxIdOf (store : List DataItem) :
    ∀ x ∈ store, x.id ≤ maxIdOf store := by
  induction store with
  | nil => intro x hx; simp at hx
  | cons a rest ih =>
      intro x hx
      cases rest with
      | nil =>
          rw [List.mem_singleton] at hx
          subst hx
          exact le_refl _
      | cons b rest2 =>
          rw [maxIdOf]
          rcases List.mem_cons.mp hx with h1 | h1
          · subst h1; exact le_max_left _ _
          · exact le_trans (ih x h1) (le_max_right _ _)

/-- Claim C9: a create request that passes validation against a non-empty
store creates an item whose id is one plus the maximum id in the store — hence
strictly greater than, and distinct from, every existing id — and appends it
to the end of the store. -/
theorem create_item_id_fresh (store : List DataItem) (title content createdAt : String)
    (hne : store ≠ []) (ht : title ≠ "") (hc : content ≠ "") :
    ∃ store2 newItem,
      createItem store (some title) (some content) createdAt = some (store2, newItem)
      ∧ newItem.id = maxIdOf store + 1
      ∧ (∀ x ∈ store, x.id < newItem.id)
      ∧ (∀ x ∈ store, x.id ≠ newItem.id)
      ∧ store2 = store ++ [newItem] := by
  have hne2 := hne
  refine ⟨store ++ [⟨maxIdOf store + 1, title, content, createdAt⟩],
    ⟨maxIdOf store + 1, title, content, createdAt⟩, ?_, rfl, ?_, ?_, rfl⟩
  · simp only [createItem]
    rw [if_neg]
    push_neg
    exact ⟨ht, hc⟩
  · intro x hx
    have h1 : (⟨maxIdOf store + 1, title, content, createdAt⟩ : DataItem).id
        = maxIdOf store + 1 := rfl
    rw [h1]
    exact lt_of_le_of_lt (le_maxIdOf store x hx) (by omega)
  · intro x hx
    have h1 : (⟨maxIdOf store + 1, title, content, createdAt⟩ : DataItem).id
        = maxIdOf store + 1 := rfl
    rw [h1]
    exact ne_of_lt (lt_of_le_of_lt (le_maxIdOf store x hx) (by omega))

/-- Witness for C9 on a concrete two-item store. -/
theorem create_item_id_fresh_witness :
    (sampleStoreA ≠ [] ∧ "hello" ≠ "" ∧ "world" ≠ "")
    ∧ (∃ store2 newItem,
        createItem sampleStoreA (some "hello") (some "world") "now"
          = some (store2, newItem)
        ∧ newItem.id = maxIdOf sampleStoreA + 1
        ∧ (∀ x ∈ sampleStoreA, x.id < newItem.id)
        ∧ (∀ x ∈ sampleStoreA, x.id ≠ newItem.id)
        ∧ store2 = sampleStoreA ++ [newItem]) :=
  ⟨⟨by decide, by decide, by decide⟩,
   create_item_id_fresh sampleStoreA "hello" "world" "now"
     (by decide) (by decide) (by decide)⟩

/-- The field updates never change an item's id. -/
theorem applyUpdate_id (t c : Option String) (x : DataItem) :
    (applyUpdate t c x).id = x.id := by
  rcases t with _ | tv
  · rcases c with _ | cv
    · rfl
    · by_cases h : cv = "" <;> simp [applyUpdate, h]
  · rcases c with _ | cv
    · by_cases h : tv = "" <;> simp [applyUpdate, h]
    · by_cases h1 : tv = "" <;> by_cases h2 : cv = "" <;> simp [applyUpdate, h1, h2]

/-- The field updates never change an item's createdAt. -/
theorem applyUpdate_createdAt (t c : Option String) (x : DataItem) :
    (applyUpdate t c x).createdAt = x.createdAt := by
  rcases t with _ | tv
  · rcases c with _ | cv
    · rfl
    · by_cases h : cv = "" <;> simp [applyUpdate, h]
  · rcases c with _ | cv
    · by_cases h : tv = "" <;> simp [applyUpdate, h]
    · by_cases h1 : tv = "" <;> by_cases h2 : cv = "" <;> simp [applyUpdate, h1, h2]

/-- The title changes exactly when the title field is supplied and truthy. -/
theorem applyUpdate_title (t c : Option String) (x : DataItem) :
    (applyUpdate t c x).title
      = (if truthy t then t.getD x.title else x.title) := by
  rcases t with _ | tv
  · rcases c with _ | cv
    · rfl
    · by_cases h : cv = "" <;> simp [applyUpdate, truthy, h]
  · rcases c with _ | cv
    · by_cases h : tv = "" <;> simp [applyUpdate, truthy, h]
    · by_cases h1 : tv = "" <;> by_cases h2 : cv = "" <;>
        simp [applyUpdate, truthy, h1, h2]

/-- The content changes exactly when the content field is supplied and truthy. -/
theorem applyUpdate_content (t c : Option String) (x : DataItem) :
    (applyUpdate t c x).content
      = (if truthy c then c.getD x.content else x.content) := by
  rcases t with _ | tv
  · rcases c with _ | cv
    · rfl
    · by_cases h : cv = "" <;> simp [applyUpdate, truthy, h]
  · rcases c with _ | cv
    · by_cases h : tv = "" <;> simp [applyUpdate, truthy, h]
    · by_cases h1 : tv = "" <;> by_cases h2 : cv = "" <;>
        simp [applyUpdate, truthy, h1, h2]

/-- The post-validation update rewrites exactly the first item matching the
id: the store splits as before ++ target :: after with the same before and
after, and the target's fields change per the truthiness guards. -/
theorem updateItem_first_match (store : List DataItem) (idv : Int)
    (titleOpt contentOpt : Option String) (h : ∃ x ∈ store, x.id = idv) :
    ∃ before x after,
      store = before ++ x :: after
      ∧ x.id = idv
      ∧ (∀ y ∈ before, y.id ≠ idv)
      ∧ updateItem idv titleOpt contentOpt store
          = before ++ applyUpdate titleOpt contentOpt x :: after
      ∧ (applyUpdate titleOpt contentOpt x).id = x.id
      ∧ (applyUpdate titleOpt contentOpt x).createdAt = x.createdAt
      ∧ (applyUpdate titleOpt contentOpt x).title
          = (if truthy titleOpt then titleOpt.getD x.title else x.title)
      ∧ (applyUpdate titleOpt contentOpt x).content
          = (if truthy contentOpt then contentOpt.getD x.content else x.content) := by
  induction store with
  | nil => simp at h
  | cons a rest ih =>
      by_cases ha : a.id = idv
      · refine ⟨[], a, rest, by simp, ha, by simp, ?_, applyUpdate_id _ _ _,
          applyUpdate_createdAt _ _ _, applyUpdate_title _ _ _,
          applyUpdate_content _ _ _⟩
        simp [updateItem, ha]
      · obtain ⟨x0, hx0mem, hx0⟩ := h
        have hxrest : x0 ∈ rest := by
          rcases List.mem_cons.mp hx0mem with h1 | h1
          · exact absurd (h1 ▸ hx0) ha
          · exact h1
        obtain ⟨before, x, after, hsplit, hxid, hbefore, hupd, hid, hcr, hti, hco⟩ :=
          ih ⟨x0, hxrest, hx0⟩
        refine ⟨a :: before, x, after, ?_, hxid, ?_, ?_, hid, hcr, hti, hco⟩
        · rw [List.cons_append, hsplit]
        · intro y hy
          rcases List.mem_cons.mp hy with h1 | h1
          · subst h1; exact ha
          · exact hbefore y h1
        · simp only [updateItem, ha, if_false, List.cons_append]
          rw [hupd]

/-- Claim C10: for an update request whose id matches an existing item, a
validation failure (a supplied-but-empty title or content) answers 400 with
the store fully unchanged; otherwise exactly the first matching item is
rewritten — its id and createdAt are unchanged, every other item of the store
is unchanged, and its title and content each change only when the
corresponding request field is supplied and truthy. -/
theorem update_item_frame (store : List DataItem) (idv : Int)
    (titleOpt contentOpt : Option String) (h : ∃ x ∈ store, x.id = idv) :
    (putValidationOk titleOpt contentOpt = false →
      putRoute idv titleOpt contentOpt store = (PutResult.badRequest, store))
    ∧ (putValidationOk titleOpt contentOpt = true →
      ∃ before x after,
        store = before ++ x :: after
        ∧ x.id = idv
        ∧ (∀ y ∈ before, y.id ≠ idv)
        ∧ putRoute idv titleOpt contentOpt store
            = (PutResult.ok, before ++ applyUpdate titleOpt contentOpt x :: after)
        ∧ (applyUpdate titleOpt contentOpt x).id = x.id
        ∧ (applyUpdate titleOpt contentOpt x).createdAt = x.createdAt
        ∧ (applyUpdate titleOpt contentOpt x).title
            = (if truthy titleOpt then titleOpt.getD x.title else x.title)
        ∧ (applyUpdate titleOpt contentOpt x).content
            = (if truthy contentOpt then contentOpt.getD x.content else x.content)) := by
  constructor
  · intro hv
    simp [putRoute, hv]
  · intro hv
    obtain ⟨before, x, after, hsplit, hxid, hbefore, hupd, hid, hcr, hti, hco⟩ :=
      updateItem_first_match store idv titleOpt contentOpt h
    refine ⟨before, x, after, hsplit, hxid, hbefore, ?_, hid, hcr, hti, hco⟩
    have hany : store.any (fun y => y.id == idv) = true := by
      rw [List.any_eq_true]
      obtain ⟨x0, hx0m, hx0⟩ := h
      exact ⟨x0, hx0m, by simpa using hx0⟩
    simp only [putRoute, hv, hany, if_true]
    rw [hupd]

/-- Witness for C10 on a concrete store, updating the item with id 2 by
supplying a new title and no content (a validation-passing request). -/
theorem update_item_frame_witness :
    (∃ x ∈ sampleStoreB, x.id = 2)
    ∧ (∃ before x after,
        sampleStoreB = before ++ x :: after
        ∧ x.id = 2
        ∧ (∀ y ∈ before, y.id ≠ 2)
        ∧ putRoute 2 (some "new") none sampleStoreB
            = (PutResult.ok, before ++ applyUpdate (some "new") none x :: after)
        ∧ (applyUpdate (some "new") none x).id = x.id
        ∧ (applyUpdate (some "new") none x).createdAt = x.createdAt
        ∧ (applyUpdate (some "new") none x).title
            = (if truthy (some "new") then (some "new").getD x.title else x.title)
        ∧ (applyUpdate (some "new") none x).content
            = (if truthy (none : Option String)
                then (none : Option String).getD x.content else x.content)) :=
  ⟨by decide,
   (update_item_frame sampleStoreB 2 (some "new") none (by decide)).2 (by decide)⟩

end DataRoutes
